import Mathlib

/-!
Verification of a minimal event-sourcing/CQRS kernel (Python source:
`domain.py`, `persistance.py`, `read_model.py`).

Shallow embedding conventions:
* `Money` is modelled as `Int` (all claims involve a single currency, so the
  currency tag of the `money` library is irrelevant here).
* `UUID` is modelled as `Nat`; the randomness of `uuid4()` is modelled by
  passing the fresh id as an explicit argument to the account constructor.
* Python exceptions are modelled with `Except PyExn` for operations whose
  exceptions abort the caller, and with a `state × Option PyExn` pair for
  in-place mutators where the claim speaks about the object after a failed
  call (in the source, every such error path raises before any mutation, so
  the pre-state is returned unchanged).
* Python `dict` is an association list (`BalanceView`), or a total function
  defaulting to `[]` for the `defaultdict(deque)` of per-id event streams
  (reading a missing key in the source inserts an empty deque, which is
  observably the same as the default-function view).
-/

/-- Python exceptions raised by the embedded code: the two domain exceptions
declared in `domain.py` plus the built-in exceptions its error paths can hit. -/
inductive PyExn where
  | unknownEvent
  | notEnoughMoney
  | attributeError
  | keyError
  | typeError
deriving DecidableEq, Repr

/-- The event hierarchy of `domain.py`: the (instantiable) base class `Event`
with `producer_id`, and its two subclasses `AccountCreated` and
`MoneyWithdrawn`. -/
inductive Event where
  | base (producer_id : Nat)
  | accountCreated (producer_id : Nat) (deposit : Int)
  | moneyWithdrawn (producer_id : Nat) (amount : Int)
deriving DecidableEq, Repr

/-- The runtime class of an event, as used by `Reader._handlers_for`
(`type(event)` keys the handler dict). -/
inductive EventType where
  | event
  | accountCreated
  | moneyWithdrawn
deriving DecidableEq, Repr

/-- `type(event)` for the embedded event hierarchy. -/
def Event.type_of : Event → EventType
  | .base _ => .event
  | .accountCreated _ _ => .accountCreated
  | .moneyWithdrawn _ _ => .moneyWithdrawn

/-- The `Account` entity of `domain.py`.  `_id` and `_balance` are declared but
unassigned on a bare instance (`Entity.construct`), hence `Option`; reading
them before assignment raises `AttributeError` in Python.  `changes` is the
`_changes` deque of uncommitted events. -/
structure Account where
  id : Option Nat
  balance : Option Int
  changes : List Event
deriving DecidableEq, Repr

/-- `Entity.construct` / `Entity._constructor`: a bare, state-less instance —
no id, no balance, empty uncommitted-changes deque. -/
def Account.construct : Account :=
  { id := none, balance := none, changes := [] }

/-- `Account._apply` (singledispatch): `AccountCreated` sets `_id` and
`_balance`; `MoneyWithdrawn` does `_balance -= amount` (reading an unset
`_balance` raises `AttributeError`); any other variant falls through to
`Entity._apply`, which raises `UnknownEvent`. -/
def Account.applyEvent (a : Account) : Event → Except PyExn Account
  | .accountCreated pid dep => .ok { a with id := some pid, balance := some dep }
  | .moneyWithdrawn _ amt =>
    match a.balance with
    | some b => .ok { a with balance := some (b - amt) }
    | none => .error .attributeError
  | .base _ => .error .unknownEvent

/-- `Entity.hydrate`: applies an event without buffering it. -/
def Account.hydrate (a : Account) (e : Event) : Except PyExn Account :=
  a.applyEvent e

/-- `Entity._take`: `self._apply(event)` then `self._changes.append(event)`,
in that order.  If `_apply` raises, the append never runs and (since every
error path of `_apply` raises before mutating) the object is unchanged: we
return the pre-state together with the exception. -/
def Account.take (a : Account) (e : Event) : Account × Option PyExn :=
  match a.applyEvent e with
  | .ok a2 => ({ a2 with changes := a2.changes ++ [e] }, none)
  | .error err => (a, some err)

/-- `Entity.uncommitted_changes`: an order-preserving snapshot of `_changes`. -/
def Account.uncommitted_changes (a : Account) : List Event :=
  a.changes

/-- `Account.__init__(deposit)`: constructs a bare instance and immediately
takes `AccountCreated(producer_id=uuid4(), deposit=deposit)`.  The random
`uuid4()` is passed in as `freshId`. -/
def Account.create (freshId : Nat) (deposit : Int) : Account :=
  (Account.construct.take (.accountCreated freshId deposit)).1

/-- `Account.withdraw(amount)`: reads `self._balance` (AttributeError if
unset); if `balance >= amount`, takes `MoneyWithdrawn(producer_id=self._id,
amount=amount)` (reading `self._id`, AttributeError if unset); otherwise
raises `NotEnoughMoney`. -/
def Account.withdraw (a : Account) (amount : Int) : Account × Option PyExn :=
  match a.balance with
  | none => (a, some .attributeError)
  | some b =>
    if amount ≤ b then
      match a.id with
      | none => (a, some .attributeError)
      | some i => a.take (.moneyWithdrawn i amount)
    else (a, some .notEnoughMoney)

/-- The `EventStore` of `persistance.py`: a global stream and per-producer-id
streams (`defaultdict(deque)`, modelled as a total function defaulting to the
empty list). -/
structure EventStore where
  global_stream : List Event
  event_streams : Nat → List Event

/-- `EventStore.__init__`: empty global stream, empty per-id streams. -/
def EventStore.empty : EventStore :=
  { global_stream := [], event_streams := fun _ => [] }

/-- `EventStore.store(producer_id, events)`: extends both the global stream
and the per-id stream for `producer_id` with the given events, in order. -/
def EventStore.store (s : EventStore) (producer_id : Nat) (events : List Event) :
    EventStore :=
  { global_stream := s.global_stream ++ events
    event_streams := fun i =>
      if i = producer_id then s.event_streams i ++ events else s.event_streams i }

/-- `EventStore.all_events_for(producer_id)`: the per-id stream, in append
order (the generator is consumed into a list). -/
def EventStore.all_events_for (s : EventStore) (producer_id : Nat) : List Event :=
  s.event_streams producer_id

/-- `EventStore.all_streams()`: the whole global stream.  NOTE: in the source
this method takes no `start_at` parameter. -/
def EventStore.all_streams (s : EventStore) : List Event :=
  s.global_stream

/-- `functools.reduce(self._apply_event, changes, root)` from
`Repository.get`: folds `hydrate` left-to-right; an exception raised by
`hydrate` propagates out of the fold. -/
def Account.hydrateAll (a : Account) : List Event → Except PyExn Account
  | [] => .ok a
  | e :: rest =>
    match a.hydrate e with
    | .ok a2 => a2.hydrateAll rest
    | .error err => .error err

/-- `Repository.save(account)`: `store(account.id, account.uncommitted_changes)`.
Reading `.id` on a bare instance raises `AttributeError`.  The entity itself is
not written to at all. -/
def Repository.save (store : EventStore) (a : Account) : Except PyExn EventStore :=
  match a.id with
  | some i => .ok (store.store i a.uncommitted_changes)
  | none => .error .attributeError

/-- `Repository.get(entity_id)` (bound to the `Account` entity class):
`reduce(_apply_event, all_events_for(entity_id), Entity.construct())`. -/
def Repository.get (store : EventStore) (entity_id : Nat) : Except PyExn Account :=
  Account.construct.hydrateAll (store.all_events_for entity_id)

/-- The `AccountDTO` of `read_model.py`. -/
structure AccountDTO where
  account_id : Nat
  balance : Int
deriving DecidableEq, Repr

/-- In-place update of a Python dict modelled as an association list: replace
the value at an existing key, otherwise append the new binding. -/
def dictInsert (d : List (Nat × Int)) (k : Nat) (v : Int) : List (Nat × Int) :=
  match d with
  | [] => [(k, v)]
  | (k2, v2) :: rest =>
    if k2 = k then (k, v) :: rest else (k2, v2) :: dictInsert rest k v

/-- The `BalanceView` read model: `_storage` is a dict from account id to
balance. -/
structure BalanceView where
  storage : List (Nat × Int)
deriving DecidableEq, Repr

/-- `BalanceView.__init__`: empty storage. -/
def BalanceView.init : BalanceView :=
  { storage := [] }

/-- `BalanceView.handle` (singledispatch): `AccountCreated` sets
`_storage[producer_id] = deposit`; `MoneyWithdrawn` does
`_storage[producer_id] -= amount`, which raises `KeyError` when the key is
absent; any other variant hits the default registration, which is `pass`. -/
def BalanceView.handle (v : BalanceView) : Event → Except PyExn BalanceView
  | .accountCreated pid dep => .ok { storage := dictInsert v.storage pid dep }
  | .moneyWithdrawn pid amt =>
    match v.storage.lookup pid with
    | some b => .ok { storage := dictInsert v.storage pid (b - amt) }
    | none => .error .keyError
  | .base _ => .ok v

/-- Handling a sequence of events, one after the other, as the `Reader`
dispatches them to a registered projection; an exception raised by `handle`
propagates. -/
def BalanceView.handleAll (v : BalanceView) : List Event → Except PyExn BalanceView
  | [] => .ok v
  | e :: rest =>
    match v.handle e with
    | .ok v2 => v2.handleAll rest
    | .error err => .error err

/-- `BalanceView.for_account(account_id)`: reads `_storage[account_id]`
(`KeyError` when absent) and wraps it in an `AccountDTO`. -/
def BalanceView.for_account (v : BalanceView) (account_id : Nat) :
    Except PyExn AccountDTO :=
  match v.storage.lookup account_id with
  | some b => .ok { account_id := account_id, balance := b }
  | none => .error .keyError

/-- The `Reader` of `read_model.py`: a cursor into the global stream and a
`defaultdict(list)` from event class to the projections registered for it
(projections are named by indices into a separate list of `BalanceView`
states, so that dispatch can update them). -/
structure Reader where
  last_position : Nat
  handlers : List (EventType × List Nat)
deriving DecidableEq, Repr

/-- `Reader.__init__`: cursor at 0, no registrations. -/
def Reader.init : Reader :=
  { last_position := 0, handlers := [] }

/-- Append a projection to the handler list of one event class
(`self._handlers[e].append(read_model)` on a `defaultdict(list)`). -/
def handlersAppend (hs : List (EventType × List Nat)) (et : EventType)
    (read_model : Nat) : List (EventType × List Nat) :=
  match hs with
  | [] => [(et, [read_model])]
  | (et2, l) :: rest =>
    if et2 = et then (et2, l ++ [read_model]) :: rest
    else (et2, l) :: handlersAppend rest et read_model

/-- `Reader.register(read_model, *events)`: appends the projection to the
handler list of each given event class, in order. -/
def Reader.register (r : Reader) (read_model : Nat) (events : List EventType) :
    Reader :=
  { r with handlers := events.foldl (fun hs et => handlersAppend hs et read_model) r.handlers }

/-- `Reader._handlers_for(event)`: the projections registered for
`type(event)`, in registration order (`defaultdict` yields `[]` for an
unregistered class). -/
def Reader.handlers_for (r : Reader) (e : Event) : List Nat :=
  match r.handlers.lookup e.type_of with
  | some l => l
  | none => []

/-- `Reader._new_events()`: the source is
`return self._event_store.all_streams(start_at=self._last_position)`, but
`EventStore.all_streams` takes no `start_at` parameter, so this call raises
`TypeError: all_streams() got an unexpected keyword argument` on every
invocation. -/
def Reader.new_events (r : Reader) (s : EventStore) : Except PyExn (List Event) :=
  .error .typeError

/-- `Reader._handle_event(event)`: calls `handler.handle(event)` on every
registered projection for the event's class, in registration order; an
exception from a projection propagates. -/
def Reader.handle_event (r : Reader) (views : List BalanceView) (e : Event) :
    Except PyExn (List BalanceView) :=
  dispatchList views (r.handlers_for e) e
where
  /-- Walk the registered projection indices, updating each projection state. -/
  dispatchList (views : List BalanceView) : List Nat → Event →
      Except PyExn (List BalanceView)
    | [], _ => .ok views
    | idx :: rest, e =>
      match views.get? idx with
      | none => .error .attributeError
      | some v =>
        match v.handle e with
        | .ok v2 => dispatchList (views.set idx v2) rest e
        | .error err => .error err

/-- `Reader._mark_handled()`: advance the cursor by one. -/
def Reader.mark_handled (r : Reader) : Reader :=
  { r with last_position := r.last_position + 1 }

/-- The loop body of `Reader.update_all`: for each new event, `_handle_event`
then `_mark_handled`. -/
def Reader.update_loop (r : Reader) (views : List BalanceView) :
    List Event → Except PyExn (Reader × List BalanceView)
  | [] => .ok (r, views)
  | e :: rest =>
    match r.handle_event views e with
    | .ok views2 => Reader.update_loop r.mark_handled views2 rest
    | .error err => .error err

/-- `Reader.update_all()`: iterate over `self._new_events()`; since
`_new_events` always raises `TypeError` (see `Reader.new_events`), the loop
is never entered and the exception propagates. -/
def Reader.update_all (r : Reader) (s : EventStore) (views : List BalanceView) :
    Except PyExn (Reader × List BalanceView) :=
  match r.new_events s with
  | .ok evs => r.update_loop views evs
  | .error err => .error err

/-- A sequence of `EventStore.store` calls, applied in order (each list entry
is one call's `(producer_id, events)` pair). -/
def runStore (s : EventStore) (bs : List (Nat × List Event)) : EventStore :=
  bs.foldl (fun s b => s.store b.1 b.2) s

/-- A sequence of `Account.withdraw` calls, each of which must succeed; a
raised exception aborts the sequence, as it would abort the caller. -/
def runWithdrawals (a : Account) : List Int → Except PyExn Account
  | [] => .ok a
  | w :: ws =>
    match a.withdraw w with
    | (a2, none) => runWithdrawals a2 ws
    | (_, some err) => .error err

/-- Claim C4: withdrawing more than the current balance raises `NotEnoughMoney`
and leaves the account (in particular its uncommitted-changes buffer and its
derived balance) unchanged; withdrawing at most the balance emits exactly one
`MoneyWithdrawn` event and decreases the balance by exactly that amount. -/
theorem withdraw_guard_correct (a : Account) (b : Int) (i : Nat) (amount : Int)
    (hb : a.balance = some b) (hi : a.id = some i) :
    (b < amount → a.withdraw amount = (a, some PyExn.notEnoughMoney))
    ∧ (amount ≤ b →
        a.withdraw amount =
          ({ id := a.id, balance := some (b - amount),
             changes := a.changes ++ [Event.moneyWithdrawn i amount] }, none)) := by
  obtain ⟨oid, obal, ch⟩ := a
  have hb2 : obal = some b := hb
  have hi2 : oid = some i := hi
  subst hb2
  subst hi2
  constructor
  · intro hlt
    simp [Account.withdraw, not_le.mpr hlt]
  · intro hle
    simp [Account.withdraw, Account.take, Account.applyEvent, hle]

/-- Closed instance of `withdraw_guard_correct`: an account created with
deposit 100 rejects a withdrawal of 200 unchanged, and a withdrawal of 10
emits one `MoneyWithdrawn` event and leaves balance 90. -/
theorem withdraw_guard_correct_witness :
    (Account.create 1 100).withdraw 200 = (Account.create 1 100, some PyExn.notEnoughMoney)
    ∧ (Account.create 1 100).withdraw 10 =
        ({ id := some 1, balance := some 90,
           changes := [Event.accountCreated 1 100, Event.moneyWithdrawn 1 10] }, none) := by
  refine ⟨(withdraw_guard_correct (Account.create 1 100) 100 1 200 rfl rfl).1 (by decide), ?_⟩
  have h := (withdraw_guard_correct (Account.create 1 100) 100 1 10 rfl rfl).2 (by decide)
  exact h

/-- Claim C9: an event variant the `Account` type has no `_apply` handler for
(a bare `Event` falls through to `Entity._apply`) raises `UnknownEvent`; and
since `_take` applies before buffering, any failing apply propagates its
exception and leaves the uncommitted-changes buffer (indeed the whole object)
unchanged — the event is never buffered. -/
theorem take_unknown_event_not_buffered (a : Account) (pid : Nat) (e : Event)
    (err : PyExn) (h : a.applyEvent e = .error err) :
    a.applyEvent (.base pid) = .error PyExn.unknownEvent
    ∧ a.take (.base pid) = (a, some PyExn.unknownEvent)
    ∧ a.take e = (a, some err) := by
  refine ⟨rfl, rfl, ?_⟩
  unfold Account.take
  rw [h]

/-- Closed instance of `take_unknown_event_not_buffered` at a freshly created
account and a `MoneyWithdrawn` event applied to a bare instance. -/
theorem take_unknown_event_not_buffered_witness :
    Account.construct.applyEvent (.base 5) = .error PyExn.unknownEvent
    ∧ Account.construct.take (.base 5) = (Account.construct, some PyExn.unknownEvent)
    ∧ Account.construct.take (.moneyWithdrawn 1 5) = (Account.construct, some PyExn.attributeError) :=
  take_unknown_event_not_buffered Account.construct 5 (.moneyWithdrawn 1 5)
    PyExn.attributeError rfl

/-- Claim C7: for an id with no stored events, `all_events_for` yields the
empty sequence and `Repository.get` raises nothing, returning the blank,
state-less instance produced by `Entity.construct` (no id, no balance). -/
theorem get_unknown_id_returns_blank (s : EventStore) (pid : Nat)
    (h : s.event_streams pid = []) :
    s.all_events_for pid = []
    ∧ Repository.get s pid = .ok Account.construct
    ∧ Account.construct.id = none ∧ Account.construct.balance = none := by
  refine ⟨h, ?_, rfl, rfl⟩
  unfold Repository.get EventStore.all_events_for
  rw [h]
  rfl

/-- Closed instance of `get_unknown_id_returns_blank` on the empty store. -/
theorem get_unknown_id_returns_blank_witness :
    EventStore.empty.all_events_for 9 = []
    ∧ Repository.get EventStore.empty 9 = .ok Account.construct
    ∧ Account.construct.id = none ∧ Account.construct.balance = none :=
  get_unknown_id_returns_blank EventStore.empty 9 rfl

/-- Claim C8: `Repository.save` appends exactly `uncommitted_changes` to the
global stream and to the per-id stream of `entity.id`, touching no other
stream; the entity value itself is not written to (the embedding's `save`
returns no updated account), so saving the very same unchanged entity a
second time appends the same event sequence again. -/
theorem save_appends_uncommitted_changes (s : EventStore) (a : Account) (i : Nat)
    (hi : a.id = some i) :
    ∃ s2, Repository.save s a = .ok s2
      ∧ s2.global_stream = s.global_stream ++ a.uncommitted_changes
      ∧ s2.event_streams i = s.event_streams i ++ a.uncommitted_changes
      ∧ (∀ j, j ≠ i → s2.event_streams j = s.event_streams j)
      ∧ ∃ s3, Repository.save s2 a = .ok s3
        ∧ s3.global_stream =
            s.global_stream ++ a.uncommitted_changes ++ a.uncommitted_changes
        ∧ s3.event_streams i =
            s.event_streams i ++ a.uncommitted_changes ++ a.uncommitted_changes := by
  refine ⟨s.store i a.uncommitted_changes, ?_, rfl, ?_, ?_,
    (s.store i a.uncommitted_changes).store i a.uncommitted_changes, ?_, ?_, ?_⟩
  · unfold Repository.save
    rw [hi]
  · simp [EventStore.store]
  · intro j hj
    simp [EventStore.store, hj]
  · unfold Repository.save
    rw [hi]
  · simp [EventStore.store]
  · simp [EventStore.store]

/-- Closed instance of `save_appends_uncommitted_changes`: saving a fresh
account twice into the empty store appends its single creation event twice. -/
theorem save_appends_uncommitted_changes_witness :
    ∃ s2, Repository.save EventStore.empty (Account.create 4 25) = .ok s2
      ∧ s2.global_stream = EventStore.empty.global_stream
          ++ (Account.create 4 25).uncommitted_changes
      ∧ s2.event_streams 4 = EventStore.empty.event_streams 4
          ++ (Account.create 4 25).uncommitted_changes
      ∧ (∀ j, j ≠ 4 → s2.event_streams j = EventStore.empty.event_streams j)
      ∧ ∃ s3, Repository.save s2 (Account.create 4 25) = .ok s3
        ∧ s3.global_stream = EventStore.empty.global_stream
            ++ (Account.create 4 25).uncommitted_changes
            ++ (Account.create 4 25).uncommitted_changes
        ∧ s3.event_streams 4 = EventStore.empty.event_streams 4
            ++ (Account.create 4 25).uncommitted_changes
            ++ (Account.create 4 25).uncommitted_changes :=
  save_appends_uncommitted_changes EventStore.empty (Account.create 4 25) 4 rfl

/-- Replay invariant: folding `hydrate` over the account's own
uncommitted-changes list, starting from a bare `Entity.construct` instance,
reproduces the account's id and derived balance (with an empty buffer). -/
def replaysTo (a : Account) : Prop :=
  Account.construct.hydrateAll a.changes =
    .ok { id := a.id, balance := a.balance, changes := [] }

/-- `hydrateAll` splits over list append, propagating a raised exception. -/
theorem hydrateAll_append (l1 l2 : List Event) :
    ∀ a : Account, a.hydrateAll (l1 ++ l2) =
      match a.hydrateAll l1 with
      | .ok a2 => a2.hydrateAll l2
      | .error err => .error err := by
  induction l1 with
  | nil => intro a; rfl
  | cons e rest ih =>
    intro a
    show (match a.hydrate e with
          | .ok a2 => a2.hydrateAll (rest ++ l2)
          | .error err => .error err) = _
    cases h : a.hydrate e with
    | ok a2 => simp [Account.hydrateAll, h, ih a2]
    | error err => simp [Account.hydrateAll, h]

/-- A freshly constructed account satisfies the replay invariant. -/
theorem create_replaysTo (freshId : Nat) (dep : Int) :
    replaysTo (Account.create freshId dep) := rfl

/-- A successful `withdraw` preserves the replay invariant and the id. -/
theorem withdraw_ok_replaysTo (a a2 : Account) (w : Int)
    (ha : replaysTo a) (h : a.withdraw w = (a2, none)) :
    replaysTo a2 ∧ a2.id = a.id := by
  obtain ⟨oid, obal, ch⟩ := a
  cases obal with
  | none => simp [Account.withdraw] at h
  | some b =>
    by_cases hle : w ≤ b
    · cases oid with
      | none => simp [Account.withdraw, hle] at h
      | some i =>
        simp only [Account.withdraw, hle, if_pos, Account.take,
          Account.applyEvent] at h
        obtain ⟨ha2, -⟩ := Prod.mk.injEq .. ▸ h
        subst ha2
        refine ⟨?_, rfl⟩
        unfold replaysTo at ha ⊢
        simp only []
        rw [hydrateAll_append, ha]
        rfl
    · simp [Account.withdraw, hle] at h

/-- A sequence of successful withdrawals preserves the replay invariant and
the id. -/
theorem runWithdrawals_replaysTo (ws : List Int) :
    ∀ a a2 : Account, replaysTo a → runWithdrawals a ws = .ok a2 →
      replaysTo a2 ∧ a2.id = a.id := by
  induction ws with
  | nil =>
    intro a a2 ha h
    cases h
    exact ⟨ha, rfl⟩
  | cons w rest ih =>
    intro a a2 ha h
    unfold runWithdrawals at h
    cases hw : a.withdraw w with
    | mk a3 o =>
      cases o with
      | none =>
        rw [hw] at h
        obtain ⟨h1, h2⟩ := withdraw_ok_replaysTo a a3 w ha hw
        obtain ⟨h3, h4⟩ := ih a3 a2 h1 h
        exact ⟨h3, h4.trans h2⟩
      | some err =>
        rw [hw] at h
        cases h

/-- Claim C1: replay determinism.  For any freshly created account and any
sequence of successful withdrawals, saving the account into a store holding
no prior events for its id and then loading it back through `Repository.get`
(i.e. `Entity.construct` + fold of `hydrate` over the stored events) yields
an entity with the same id and the same derived balance. -/
theorem replay_determinism (freshId : Nat) (dep : Int) (ws : List Int)
    (a : Account)
    (hrun : runWithdrawals (Account.create freshId dep) ws = .ok a)
    (s : EventStore) (hfresh : s.event_streams freshId = []) :
    ∃ s2, Repository.save s a = .ok s2
      ∧ ∃ a2, Repository.get s2 freshId = .ok a2
        ∧ a2.id = a.id ∧ a2.balance = a.balance := by
  obtain ⟨hra, hid⟩ :=
    runWithdrawals_replaysTo ws (Account.create freshId dep) a
      (create_replaysTo freshId dep) hrun
  have hid2 : a.id = some freshId := hid
  refine ⟨s.store freshId a.uncommitted_changes, ?_, ?_⟩
  · unfold Repository.save
    rw [hid2]
  · refine ⟨{ id := a.id, balance := a.balance, changes := [] }, ?_, rfl, rfl⟩
    unfold Repository.get EventStore.all_events_for
    have hstream : (s.store freshId a.uncommitted_changes).event_streams freshId
        = a.changes := by
      simp [EventStore.store, hfresh, Account.uncommitted_changes]
    rw [hstream]
    exact hra

/-- Closed instance of `replay_determinism`: create with deposit 100,
withdraw 30 then 20, save into the empty store; `Repository.get` returns an
entity with the same id and balance 50. -/
theorem replay_determinism_witness :
    ∃ s2, Repository.save EventStore.empty
        { id := some 7, balance := some 50,
          changes := [Event.accountCreated 7 100, Event.moneyWithdrawn 7 30,
            Event.moneyWithdrawn 7 20] } = .ok s2
      ∧ ∃ a2, Repository.get s2 7 = .ok a2
        ∧ a2.id = some 7 ∧ a2.balance = some 50 :=
  replay_determinism 7 100 [30, 20]
    { id := some 7, balance := some 50,
      changes := [Event.accountCreated 7 100, Event.moneyWithdrawn 7 30,
        Event.moneyWithdrawn 7 20] }
    rfl EventStore.empty rfl

/-- Unfolding lemma: running a sequence of `store` calls consumes the head
call first. -/
theorem runStore_cons (s : EventStore) (b : Nat × List Event)
    (bs : List (Nat × List Event)) :
    runStore s (b :: bs) = runStore (s.store b.1 b.2) bs := rfl

/-- The global stream after a sequence of `store` calls is the old global
stream followed by all stored batches, flattened in call order. -/
theorem runStore_global_stream (bs : List (Nat × List Event)) :
    ∀ s : EventStore,
      (runStore s bs).global_stream = s.global_stream ++ (bs.map Prod.snd).flatten := by
  induction bs with
  | nil => intro s; simp [runStore]
  | cons b rest ih =>
    intro s
    rw [runStore_cons, ih]
    simp [EventStore.store]

/-- The per-id stream after a sequence of `store` calls is the old per-id
stream followed by exactly the batches stored under that id, flattened in
call order. -/
theorem runStore_event_streams (bs : List (Nat × List Event)) :
    ∀ (s : EventStore) (i : Nat),
      (runStore s bs).event_streams i =
        s.event_streams i ++ ((bs.filter fun b => b.1 == i).map Prod.snd).flatten := by
  induction bs with
  | nil => intro s i; simp [runStore]
  | cons b rest ih =>
    intro s i
    rw [runStore_cons, ih]
    by_cases h : b.1 = i
    · simp [EventStore.store, List.filter_cons, h]
    · simp [EventStore.store, List.filter_cons, h, Ne.symm h]

/-- One `store` call preserves "every per-id stream is a sublist of the
global stream". -/
theorem store_streams_sublist (s : EventStore) (pid : Nat) (evs : List Event)
    (h : ∀ i, List.Sublist (s.event_streams i) s.global_stream) :
    ∀ i, List.Sublist ((s.store pid evs).event_streams i) ((s.store pid evs).global_stream) := by
  intro i
  simp only [EventStore.store]
  by_cases hi : i = pid
  · rw [if_pos hi]
    exact (h i).append (List.Sublist.refl evs)
  · rw [if_neg hi]
    exact (h i).trans (List.sublist_append_left _ _)

/-- Any sequence of `store` calls preserves "every per-id stream is a sublist
of the global stream" — the same relative order in both. -/
theorem runStore_streams_sublist (bs : List (Nat × List Event)) :
    ∀ s : EventStore, (∀ i, List.Sublist (s.event_streams i) s.global_stream) →
      ∀ i, List.Sublist ((runStore s bs).event_streams i) ((runStore s bs).global_stream) := by
  induction bs with
  | nil => intro s h; exact h
  | cons b rest ih =>
    intro s h
    exact ih _ (store_streams_sublist s b.1 b.2 h)

/-- Summing a function over a duplicate-free list after bumping its value at
one member by `n` bumps the total by `n`. -/
theorem map_sum_bump (ids : List Nat) (f : Nat → Nat) (pid n : Nat)
    (hnd : ids.Nodup) (hm : pid ∈ ids) :
    (ids.map fun i => if i = pid then f i + n else f i).sum = (ids.map f).sum + n := by
  induction ids with
  | nil => cases hm
  | cons j rest ih =>
    rw [List.map_cons, List.map_cons, List.sum_cons, List.sum_cons]
    rcases List.mem_cons.mp hm with h | h
    · subst h
      rw [if_pos rfl]
      have hrest : (rest.map fun i => if i = pid then f i + n else f i) = rest.map f := by
        apply List.map_congr_left
        intro x hx
        rw [if_neg]
        exact fun hxp => (List.nodup_cons.mp hnd).1 (hxp ▸ hx)
      rw [hrest]
      omega
    · have hj : j ≠ pid := fun hh => (List.nodup_cons.mp hnd).1 (hh ▸ h)
      rw [if_neg hj, ih (List.nodup_cons.mp hnd).2 h]
      omega

/-- Counting: over any duplicate-free list of ids covering every `store`
call's producer id, the per-id stream lengths grow in total by exactly the
number of stored events. -/
theorem runStore_length_sum (bs : List (Nat × List Event)) :
    ∀ (s : EventStore) (ids : List Nat), ids.Nodup → (∀ b ∈ bs, b.1 ∈ ids) →
      (ids.map fun i => ((runStore s bs).event_streams i).length).sum
        = (ids.map fun i => (s.event_streams i).length).sum
          + ((bs.map Prod.snd).flatten).length := by
  induction bs with
  | nil => intro s ids _ _; simp [runStore]
  | cons b rest ih =>
    intro s ids h1 h2
    rw [runStore_cons,
      ih (s.store b.1 b.2) ids h1 (fun x hx => h2 x (List.mem_cons_of_mem b hx))]
    have hmem : b.1 ∈ ids := h2 b (List.mem_cons_self b rest)
    have heq : (ids.map fun i => ((s.store b.1 b.2).event_streams i).length)
        = ids.map fun i =>
            if i = b.1 then (s.event_streams i).length + b.2.length
            else (s.event_streams i).length := by
      apply List.map_congr_left
      intro i _
      by_cases hi : i = b.1 <;> simp [EventStore.store, hi]
    rw [heq, map_sum_bump ids _ b.1 b.2.length h1 hmem]
    simp
    omega

/-- Claim C5: the `EventStore` is a pure append log.  A single `store` call
appends its events, in input order, to the global stream and to exactly the
per-id stream of the given producer id (all other streams untouched).  After
any sequence of `store` calls from the empty store: the global stream is the
concatenation of all batches in call order; each per-id stream is the
concatenation of exactly that id's batches, in the same call order; each
per-id stream occurs as a sublist of the global stream (same relative
order in both); and over any duplicate-free list of ids covering all calls,
per-id stream lengths sum to the global stream's length — every stored
occurrence lands in exactly one per-id stream and exactly once globally. -/
theorem eventStore_append_log_invariant :
    (∀ (s : EventStore) (pid : Nat) (evs : List Event),
        (s.store pid evs).global_stream = s.global_stream ++ evs
        ∧ (s.store pid evs).event_streams pid = s.event_streams pid ++ evs
        ∧ ∀ j, j ≠ pid → (s.store pid evs).event_streams j = s.event_streams j)
    ∧ ∀ bs : List (Nat × List Event),
        (runStore EventStore.empty bs).global_stream = (bs.map Prod.snd).flatten
        ∧ (∀ i, (runStore EventStore.empty bs).event_streams i
            = ((bs.filter fun b => b.1 == i).map Prod.snd).flatten)
        ∧ (∀ i, List.Sublist ((runStore EventStore.empty bs).event_streams i)
            ((runStore EventStore.empty bs).global_stream))
        ∧ ∀ ids : List Nat, ids.Nodup → (∀ b ∈ bs, b.1 ∈ ids) →
            (ids.map fun i =>
                ((runStore EventStore.empty bs).event_streams i).length).sum
              = (runStore EventStore.empty bs).global_stream.length := by
  constructor
  · intro s pid evs
    refine ⟨rfl, ?_, ?_⟩
    · simp [EventStore.store]
    · intro j hj
      simp [EventStore.store, hj]
  · intro bs
    refine ⟨?_, ?_, ?_, ?_⟩
    · rw [runStore_global_stream]
      rfl
    · intro i
      rw [runStore_event_streams]
      rfl
    · exact runStore_streams_sublist bs EventStore.empty
        (fun _ => List.Sublist.refl []) 
    · intro ids h1 h2
      rw [runStore_length_sum bs EventStore.empty ids h1 h2,
        runStore_global_stream]
      simp [EventStore.empty]

/-- Closed instance of `eventStore_append_log_invariant` on three `store`
calls over two producer ids. -/
theorem eventStore_append_log_invariant_witness :
    ((EventStore.empty.store 3 [Event.accountCreated 3 100]).event_streams 5
        = EventStore.empty.event_streams 5)
    ∧ ([3, 4].map fun i =>
          ((runStore EventStore.empty
              [(3, [Event.accountCreated 3 100]),
               (4, [Event.accountCreated 4 200]),
               (3, [Event.moneyWithdrawn 3 10])]).event_streams i).length).sum
        = (runStore EventStore.empty
            [(3, [Event.accountCreated 3 100]),
             (4, [Event.accountCreated 4 200]),
             (3, [Event.moneyWithdrawn 3 10])]).global_stream.length :=
  ⟨(eventStore_append_log_invariant.1 EventStore.empty 3
      [Event.accountCreated 3 100]).2.2 5 (by decide),
   (eventStore_append_log_invariant.2
      [(3, [Event.accountCreated 3 100]),
       (4, [Event.accountCreated 4 200]),
       (3, [Event.moneyWithdrawn 3 10])]).2.2.2 [3, 4] (by decide) (by decide)⟩

/-- Looking up in a dict after an insert: the inserted key maps to the new
value, every other key is unaffected. -/
theorem lookup_dictInsert (d : List (Nat × Int)) (k k2 : Nat) (v : Int) :
    (dictInsert d k v).lookup k2 = if k2 = k then some v else d.lookup k2 := by
  induction d with
  | nil =>
    simp only [dictInsert, List.lookup]
    by_cases h : k2 = k
    · simp [h]
    · simp [beq_false_of_ne h, h]
  | cons p rest ih =>
    obtain ⟨k3, v3⟩ := p
    simp only [dictInsert]
    by_cases h3 : k3 = k
    · subst h3
      rw [if_pos rfl]
      simp only [List.lookup]
      by_cases h : k2 = k3
      · simp [h]
      · simp [beq_false_of_ne h, h]
    · rw [if_neg h3]
      simp only [List.lookup]
      by_cases h : k2 = k3
      · subst h
        rw [if_neg h3]
        simp
      · rw [beq_false_of_ne h]
        exact ih

/-- Handling one event that is not an `AccountCreated` for `pid` cannot make
`pid` appear in the balance view's storage. -/
theorem handle_preserves_missing (v v2 : BalanceView) (e : Event) (pid : Nat)
    (h : v.storage.lookup pid = none)
    (he : ∀ dep : Int, e ≠ .accountCreated pid dep)
    (hok : v.handle e = .ok v2) :
    v2.storage.lookup pid = none := by
  cases e with
  | base q =>
    cases hok
    exact h
  | accountCreated q dep =>
    have hq : q ≠ pid := fun hh => he dep (by rw [hh])
    cases hok
    rw [lookup_dictInsert, if_neg (fun hh => hq hh.symm)]
    exact h
  | moneyWithdrawn q amt =>
    simp only [BalanceView.handle] at hok
    cases hl : v.storage.lookup q with
    | none => rw [hl] at hok; cases hok
    | some b =>
      rw [hl] at hok
      cases hok
      have hq : q ≠ pid := fun hh => by rw [hh, h] at hl; cases hl
      rw [lookup_dictInsert, if_neg (fun hh => hq hh.symm)]
      exact h

/-- Handling a sequence of events containing no `AccountCreated` for `pid`
leaves `pid` absent from the balance view's storage. -/
theorem handleAll_missing (evs : List Event) :
    ∀ (v0 v : BalanceView) (pid : Nat), v0.storage.lookup pid = none →
      (∀ (dep : Int), Event.accountCreated pid dep ∉ evs) →
      v0.handleAll evs = .ok v → v.storage.lookup pid = none := by
  induction evs with
  | nil =>
    intro v0 v pid h0 _ hrun
    cases hrun
    exact h0
  | cons e rest ih =>
    intro v0 v pid h0 hno hrun
    unfold BalanceView.handleAll at hrun
    cases hh : v0.handle e with
    | error err => rw [hh] at hrun; cases hrun
    | ok v1 =>
      rw [hh] at hrun
      have h1 : v1.storage.lookup pid = none :=
        handle_preserves_missing v0 v1 e pid h0
          (fun dep hd => hno dep (hd ▸ List.mem_cons_self e rest)) hh
      exact ih v1 v pid h1
        (fun dep hm => hno dep (List.mem_cons_of_mem e hm)) hrun

/-- Claim C10: for an account id for which the balance view has handled no
`AccountCreated` event, `for_account` raises `KeyError`, and handling a
`MoneyWithdrawn` event for that id likewise raises `KeyError` (the
`_storage[producer_id] -= amount` lookup fails) rather than silently
ignoring the event. -/
theorem balance_view_unknown_id_key_error (evs : List Event) (v : BalanceView)
    (pid : Nat) (amt : Int)
    (hrun : BalanceView.init.handleAll evs = .ok v)
    (hno : ∀ dep : Int, Event.accountCreated pid dep ∉ evs) :
    v.for_account pid = .error PyExn.keyError
    ∧ v.handle (.moneyWithdrawn pid amt) = .error PyExn.keyError := by
  have hmiss : v.storage.lookup pid = none :=
    handleAll_missing evs BalanceView.init v pid rfl hno hrun
  constructor
  · unfold BalanceView.for_account
    rw [hmiss]
  · simp only [BalanceView.handle]
    rw [hmiss]

/-- Closed instance of `balance_view_unknown_id_key_error`: a view that has
handled one creation event for account 2 raises `KeyError` for account 1,
both on lookup and on a withdrawal event for account 1. -/
theorem balance_view_unknown_id_key_error_witness :
    ({ storage := [(2, 100)] } : BalanceView).for_account 1 = .error PyExn.keyError
    ∧ ({ storage := [(2, 100)] } : BalanceView).handle (.moneyWithdrawn 1 5)
        = .error PyExn.keyError :=
  balance_view_unknown_id_key_error [.accountCreated 2 100]
    { storage := [(2, 100)] } 1 5 rfl
    (by intro dep h; simp at h)

/-- Claim C2 (refuting evidence): `EventStore.all_streams` takes no start
offset — it always returns the entire global stream, so a later call repeats
every event already seen by an earlier call; and the Reader's
`_new_events`, which passes `start_at=last_position`, raises `TypeError` on
every invocation because `all_streams` accepts no such argument. -/
theorem all_streams_has_no_offset :
    ∀ (s : EventStore) (r : Reader) (pid : Nat) (evs : List Event),
      EventStore.all_streams s = s.global_stream
      ∧ (s.store pid evs).all_streams = s.all_streams ++ evs
      ∧ Reader.new_events r s = .error PyExn.typeError :=
  fun _ _ _ _ => ⟨rfl, rfl, rfl⟩

/-- Claim C3 (refuting evidence): `Reader.update_all` raises `TypeError` on
every invocation (its `_new_events` call passes `start_at` to an
`all_streams` that accepts no such parameter), so it never returns normally;
the claimed "second `update_all` after a completed first one" is
unrealizable on this code. -/
theorem update_all_never_returns :
    ∀ (r : Reader) (s : EventStore) (views : List BalanceView),
      Reader.update_all r s views = .error PyExn.typeError :=
  fun _ _ _ => rfl

/-- Claim C6 (refuting evidence): with one event stored and a projection
registered for both account event classes, `update_all` raises `TypeError`
before dispatching anything — no event reaches the projection and the cursor
never advances, contradicting the claimed dispatch-and-advance behavior. -/
theorem update_all_raises_before_dispatch :
    Reader.update_all (Reader.init.register 0 [.accountCreated, .moneyWithdrawn])
        (EventStore.empty.store 3 [.accountCreated 3 100]) [BalanceView.init]
      = .error PyExn.typeError := rfl
